import Mathlib

/-!
Verification development for the securities-lending journal generator
(`auto1.py`) and the PDF merger (`pdf_merger.py`).

The Python code operates on pandas DataFrames whose rows carry the fields
`security_id`, `account`, `quantity`, `value`.  We embed those rows as
structures; quantities and values are modelled as integers (the claims under
study are about exact arithmetic and exact zero-comparison, which integers
share with the source's numbers).
-/

namespace Automation

/-- One row of a position snapshot: the four fields the pipeline reads. -/
structure PositionRecord where
  security_id : String
  account : String
  quantity : Int
  value : Int
deriving DecidableEq, Repr

/-- One row of the DataFrame produced by
`pd.merge(current, previous, on=['security_id','account'], how='outer',
suffixes=('_current','_previous')).fillna(0)` after the two delta columns
have been assigned.  Before the assignments the two delta columns do not
exist; they are carried here as fields initialised to `0` and are never read
before being assigned. -/
structure MergedRow where
  security_id : String
  account : String
  quantity_current : Int
  quantity_previous : Int
  value_current : Int
  value_previous : Int
  quantity_change : Int
  value_change : Int
deriving DecidableEq, Repr

/-- The spec's ChangeRecord: the four columns of the adjustments frame that
`generate_journal_entries` reads (`security_id`, `account`,
`quantity_change`, `value_change`). -/
structure ChangeRecord where
  security_id : String
  account : String
  quantity_change : Int
  value_change : Int
deriving DecidableEq, Repr

/-- One journal entry dict appended by `generate_journal_entries`. -/
structure JournalEntry where
  date : String
  security_id : String
  account : String
  debit_account : String
  credit_account : String
  quantity : Int
  amount : Int
  description : String
deriving DecidableEq, Repr

def PositionRecord.key (r : PositionRecord) : String × String :=
  (r.security_id, r.account)

def MergedRow.key (m : MergedRow) : String × String :=
  (m.security_id, m.account)

def ChangeRecord.key (c : ChangeRecord) : String × String :=
  (c.security_id, c.account)

/-- Does record `r` carry the join key `k = (security_id, account)`? -/
def keyMatches (k : String × String) (r : PositionRecord) : Bool :=
  r.security_id == k.1 && r.account == k.2

/-- The merged row for a `current` record: paired with the `previous`
record of the same key when one exists, otherwise with the previous-side
columns filled with `0` by `fillna(0)`. -/
def leftJoinRow (prev : List PositionRecord) (c : PositionRecord) : MergedRow :=
  match prev.find? (keyMatches c.key) with
  | some p =>
      ⟨c.security_id, c.account, c.quantity, p.quantity, c.value, p.value, 0, 0⟩
  | none =>
      ⟨c.security_id, c.account, c.quantity, 0, c.value, 0, 0, 0⟩

/-- The merged row for a `previous` record whose key has no match in
`current`: the current-side columns are filled with `0` by `fillna(0)`. -/
def rightOnlyRow (p : PositionRecord) : MergedRow :=
  ⟨p.security_id, p.account, 0, p.quantity, 0, p.value, 0, 0⟩

/-- The full outer join of `pd.merge(..., on=['security_id','account'],
how='outer', ...).fillna(0)`: every row of `current` paired with the
`previous` row of the same key (or zeros), followed by the rows of
`previous` whose key has no match in `current`.  The yet-unassigned delta
columns are `0`. -/
def outerJoinRows (cur prev : List PositionRecord) : List MergedRow :=
  cur.map (leftJoinRow prev)
  ++ ((prev.filter fun p => !(cur.any (keyMatches p.key))).map rightOnlyRow)

/-- The two column assignments
`merged['quantity_change'] = merged['quantity_current'] - merged['quantity_previous']`
and `merged['value_change'] = merged['value_current'] - merged['value_previous']`. -/
def MergedRow.withDeltas (m : MergedRow) : MergedRow :=
  { m with
    quantity_change := m.quantity_current - m.quantity_previous
    value_change := m.value_current - m.value_previous }

/-- The merged frame of `calculate_adjustments` with both delta columns
assigned. -/
def mergedWithChanges (cur prev : List PositionRecord) : List MergedRow :=
  (outerJoinRows cur prev).map MergedRow.withDeltas

/-- Projection of a merged row onto the columns the entry builder reads. -/
def MergedRow.toChangeRecord (m : MergedRow) : ChangeRecord :=
  ⟨m.security_id, m.account, m.quantity_change, m.value_change⟩

/-- `JournalGenerator.calculate_adjustments` (auto1.py lines 48-86).
With `previous` present: outer-join, `fillna(0)`, delta columns, then keep
only rows with `quantity_change != 0` or `value_change != 0`.
With `previous` absent: every current row becomes an adjustment with
`quantity_change = quantity` and `value_change = value`. -/
def calculate_adjustments (cur : List PositionRecord) :
    Option (List PositionRecord) → List ChangeRecord
  | some prev =>
      ((mergedWithChanges cur prev).filter fun m =>
          m.quantity_change != 0 || m.value_change != 0).map MergedRow.toChangeRecord
  | none =>
      cur.map fun c => ⟨c.security_id, c.account, c.quantity, c.value⟩

/-- The journal-entry dict appended when `quantity_change > 0`. -/
def borrowEntry (d : String) (row : ChangeRecord) : JournalEntry :=
  ⟨d, row.security_id, row.account, "Securities Borrowed",
    "Payable for Securities", |row.quantity_change|, |row.value_change|,
    "Borrow securities " ++ row.security_id⟩

/-- The journal-entry dict appended when `quantity_change < 0`. -/
def returnEntry (d : String) (row : ChangeRecord) : JournalEntry :=
  ⟨d, row.security_id, row.account, "Payable for Securities",
    "Securities Borrowed", |row.quantity_change|, |row.value_change|,
    "Return securities " ++ row.security_id⟩

/-- The `for _, row in adjustments.iterrows()` loop of
`generate_journal_entries`, carrying the `entries` accumulator that the
loop appends to. -/
def journalLoop (d : String) : List ChangeRecord → List JournalEntry → List JournalEntry
  | [], entries => entries
  | row :: rest, entries =>
      if row.quantity_change > 0 then
        journalLoop d rest (entries ++ [borrowEntry d row])
      else if row.quantity_change < 0 then
        journalLoop d rest (entries ++ [returnEntry d row])
      else
        journalLoop d rest entries

/-- `JournalGenerator.generate_journal_entries` (auto1.py lines 88-138),
with the journal date supplied explicitly (the `date=None` default merely
injects the current date as this argument). -/
def generate_journal_entries (adjustments : List ChangeRecord) (d : String) :
    List JournalEntry :=
  journalLoop d adjustments []

lemma journalLoop_acc (d : String) (l : List ChangeRecord)
    (acc : List JournalEntry) :
    journalLoop d l acc = acc ++ journalLoop d l [] := by
  induction l generalizing acc with
  | nil => simp [journalLoop]
  | cons row rest ih =>
    by_cases hpos : row.quantity_change > 0
    · rw [journalLoop, if_pos hpos, journalLoop, if_pos hpos, ih, List.nil_append,
        ih [borrowEntry d row], List.append_assoc]
    · by_cases hneg : row.quantity_change < 0
      · rw [journalLoop, if_neg hpos, if_pos hneg, journalLoop, if_neg hpos,
          if_pos hneg, ih, List.nil_append, ih [returnEntry d row],
          List.append_assoc]
      · rw [journalLoop, if_neg hpos, if_neg hneg, journalLoop, if_neg hpos,
          if_neg hneg, ih]

/-- Step form of the entry builder: the head row contributes its (zero or
one) entries in front of what the rest contributes. -/
lemma generate_journal_entries_cons (row : ChangeRecord)
    (rest : List ChangeRecord) (d : String) :
    generate_journal_entries (row :: rest) d =
      (if row.quantity_change > 0 then [borrowEntry d row]
       else if row.quantity_change < 0 then [returnEntry d row]
       else []) ++ generate_journal_entries rest d := by
  by_cases hpos : row.quantity_change > 0
  · rw [generate_journal_entries, journalLoop, if_pos hpos, journalLoop_acc,
      if_pos hpos]
    rfl
  · by_cases hneg : row.quantity_change < 0
    · rw [generate_journal_entries, journalLoop, if_neg hpos, if_pos hneg,
        journalLoop_acc, if_neg hpos, if_pos hneg]
      rfl
    · rw [generate_journal_entries, journalLoop, if_neg hpos, if_neg hneg,
        if_neg hpos, if_neg hneg]
      rfl

/-- The entry builder is the filter of the non-zero-quantity-change rows,
each mapped to its single entry, in input order. -/
lemma generate_journal_entries_eq (adjustments : List ChangeRecord)
    (d : String) :
    generate_journal_entries adjustments d =
      (adjustments.filter fun row => row.quantity_change != 0).map
        (fun row => if row.quantity_change > 0 then borrowEntry d row
                    else returnEntry d row) := by
  induction adjustments with
  | nil => rfl
  | cons row rest ih =>
    rw [generate_journal_entries_cons, ih, List.filter_cons]
    by_cases hpos : row.quantity_change > 0
    · have hne : (row.quantity_change != 0) = true := by
        simp only [bne_iff_ne, ne_eq]
        omega
      rw [if_pos hpos, hne, if_pos rfl, List.map_cons, if_pos hpos,
        List.singleton_append]
    · by_cases hneg : row.quantity_change < 0
      · have hne : (row.quantity_change != 0) = true := by
          simp only [bne_iff_ne, ne_eq]
          omega
        rw [if_neg hpos, if_pos hneg, hne, if_pos rfl, List.map_cons,
          if_neg hpos, List.singleton_append]
      · have hz : row.quantity_change = 0 := by omega
        have hne : (row.quantity_change != 0) = false := by
          simp [hz]
        rw [if_neg hpos, if_neg hneg, hne, if_neg (by simp), List.nil_append]

/-- C1: a change record with `quantity_change > 0` contributes exactly one
journal entry debiting "Securities Borrowed" and crediting "Payable for
Securities", with quantity `abs(quantity_change)`, amount
`abs(value_change)` and description `"Borrow securities " + security_id`;
one with `quantity_change < 0` contributes exactly one entry with the two
accounts swapped and description `"Return securities " + security_id`. -/
theorem entry_builder_sign_to_account (row : ChangeRecord)
    (rest : List ChangeRecord) (d : String) :
    (row.quantity_change > 0 →
      generate_journal_entries (row :: rest) d =
        { date := d, security_id := row.security_id, account := row.account,
          debit_account := "Securities Borrowed",
          credit_account := "Payable for Securities",
          quantity := |row.quantity_change|, amount := |row.value_change|,
          description := "Borrow securities " ++ row.security_id } ::
          generate_journal_entries rest d)
    ∧ (row.quantity_change < 0 →
      generate_journal_entries (row :: rest) d =
        { date := d, security_id := row.security_id, account := row.account,
          debit_account := "Payable for Securities",
          credit_account := "Securities Borrowed",
          quantity := |row.quantity_change|, amount := |row.value_change|,
          description := "Return securities " ++ row.security_id } ::
          generate_journal_entries rest d) := by
  constructor
  · intro hpos
    rw [generate_journal_entries_cons, if_pos hpos]
    rfl
  · intro hneg
    have hpos : ¬ row.quantity_change > 0 := by omega
    rw [generate_journal_entries_cons, if_neg hpos, if_pos hneg]
    rfl

/-- Witness for C1 at concrete inputs of each sign. -/
theorem entry_builder_sign_to_account_witness :
    generate_journal_entries [⟨"SEC1", "ACC1", 50, 600⟩] "2024-01-02" =
      [{ date := "2024-01-02", security_id := "SEC1", account := "ACC1",
         debit_account := "Securities Borrowed",
         credit_account := "Payable for Securities",
         quantity := 50, amount := 600,
         description := "Borrow securities SEC1" }]
    ∧ generate_journal_entries [⟨"SEC1", "ACC1", -50, -600⟩] "2024-01-02" =
      [{ date := "2024-01-02", security_id := "SEC1", account := "ACC1",
         debit_account := "Payable for Securities",
         credit_account := "Securities Borrowed",
         quantity := 50, amount := 600,
         description := "Return securities SEC1" }] := by
  refine ⟨?_, ?_⟩
  · have h := (entry_builder_sign_to_account ⟨"SEC1", "ACC1", 50, 600⟩ []
      "2024-01-02").1 (by decide)
    rw [h]
    rfl
  · have h := (entry_builder_sign_to_account ⟨"SEC1", "ACC1", -50, -600⟩ []
      "2024-01-02").2 (by decide)
    rw [h]
    rfl

/-- C5: a change record with `quantity_change = 0` contributes no journal
entry at all, even when its `value_change` is non-zero. -/
theorem entry_builder_drops_zero_quantity_change (row : ChangeRecord)
    (rest : List ChangeRecord) (d : String)
    (h : row.quantity_change = 0) :
    generate_journal_entries (row :: rest) d =
      generate_journal_entries rest d := by
  rw [generate_journal_entries_cons, if_neg (by omega), if_neg (by omega),
    List.nil_append]

/-- Witness for C5: a pure revaluation (`quantity_change = 0`,
`value_change = 500`) produces zero journal entries. -/
theorem entry_builder_drops_zero_quantity_change_witness :
    generate_journal_entries [⟨"SEC1", "ACC1", 0, 500⟩] "2024-01-02" = [] := by
  rw [entry_builder_drops_zero_quantity_change ⟨"SEC1", "ACC1", 0, 500⟩ []
    "2024-01-02" rfl]
  rfl

/-- C6: every journal entry the builder produces has distinct debit and
credit accounts and non-negative quantity and amount. -/
theorem journal_entry_invariant (adjustments : List ChangeRecord)
    (d : String) (e : JournalEntry)
    (he : e ∈ generate_journal_entries adjustments d) :
    e.debit_account ≠ e.credit_account ∧ 0 ≤ e.quantity ∧ 0 ≤ e.amount := by
  rw [generate_journal_entries_eq] at he
  rcases List.mem_map.mp he with ⟨row, _, hrow⟩
  by_cases hpos : row.quantity_change > 0
  · rw [if_pos hpos] at hrow
    subst hrow
    refine ⟨by simp [borrowEntry], ?_, ?_⟩ <;> simp [borrowEntry, abs_nonneg]
  · rw [if_neg hpos] at hrow
    subst hrow
    refine ⟨by simp [returnEntry], ?_, ?_⟩ <;> simp [returnEntry, abs_nonneg]

/-- Witness for C6 at a concrete entry of the builder's output. -/
theorem journal_entry_invariant_witness :
    borrowEntry "2024-01-02" ⟨"SEC1", "ACC1", 40, 400⟩ ∈
      generate_journal_entries [⟨"SEC1", "ACC1", 40, 400⟩] "2024-01-02"
    ∧ (borrowEntry "2024-01-02" ⟨"SEC1", "ACC1", 40, 400⟩).debit_account ≠
        (borrowEntry "2024-01-02" ⟨"SEC1", "ACC1", 40, 400⟩).credit_account
    ∧ 0 ≤ (borrowEntry "2024-01-02" ⟨"SEC1", "ACC1", 40, 400⟩).quantity
    ∧ 0 ≤ (borrowEntry "2024-01-02" ⟨"SEC1", "ACC1", 40, 400⟩).amount := by
  have hmem : borrowEntry "2024-01-02" ⟨"SEC1", "ACC1", 40, 400⟩ ∈
      generate_journal_entries [⟨"SEC1", "ACC1", 40, 400⟩] "2024-01-02" := by
    decide
  exact ⟨hmem, journal_entry_invariant [⟨"SEC1", "ACC1", 40, 400⟩]
    "2024-01-02" (borrowEntry "2024-01-02" ⟨"SEC1", "ACC1", 40, 400⟩) hmem⟩

/-- C7: the builder's output is a flat list with exactly one entry per
input row whose `quantity_change` is non-zero, in input order (the filter
of the non-zero rows mapped to their single entries); the empty input
yields the empty output. -/
theorem entry_builder_flat_and_stable (adjustments : List ChangeRecord)
    (d : String) :
    generate_journal_entries ([] : List ChangeRecord) d = []
    ∧ generate_journal_entries adjustments d =
        (adjustments.filter fun row => row.quantity_change != 0).map
          (fun row => if row.quantity_change > 0 then borrowEntry d row
                      else returnEntry d row) :=
  ⟨rfl, generate_journal_entries_eq adjustments d⟩

/-! Spec-side view of the join, used to compare the code's merged table
with the spec's description.  `keys` lists the (security_id, account) keys
of a snapshot; `qtyOf`/`valOf` look a key up in a snapshot, treating a
missing key as zero — the spec's "for keys present in only one snapshot,
treat the missing side's quantity/value as zero". -/

def keys (s : List PositionRecord) : List (String × String) :=
  s.map PositionRecord.key

/-- Quantity of the record with key `k`, or `0` when `k` is absent. -/
def qtyOf (s : List PositionRecord) (k : String × String) : Int :=
  ((s.find? (keyMatches k)).map PositionRecord.quantity).getD 0

/-- Value of the record with key `k`, or `0` when `k` is absent. -/
def valOf (s : List PositionRecord) (k : String × String) : Int :=
  ((s.find? (keyMatches k)).map PositionRecord.value).getD 0

lemma keyMatches_iff (k : String × String) (r : PositionRecord) :
    keyMatches k r = true ↔ r.key = k := by
  simp [keyMatches, PositionRecord.key, Prod.ext_iff]

lemma any_keyMatches (s : List PositionRecord) (k : String × String) :
    s.any (keyMatches k) = true ↔ k ∈ keys s := by
  simp only [List.any_eq_true, keyMatches_iff, keys, List.mem_map]

/-- A duplicate-free list holds each element exactly once, counted with a
lawful boolean equality. -/
lemma count_eq_ite_of_nodup {α : Type} [BEq α] [LawfulBEq α] (l : List α)
    (hl : l.Nodup) (a : α) :
    l.count a = if a ∈ l then 1 else 0 := by
  induction l with
  | nil => simp
  | cons b t ih =>
    rw [List.nodup_cons] at hl
    rw [List.count_cons, ih hl.2]
    by_cases hab : a = b
    · subst hab
      simp [hl.1]
    · simp [hab, Ne.symm hab, List.mem_cons]

lemma find?_key_self (s : List PositionRecord) (hs : (keys s).Nodup)
    (c : PositionRecord) (hmem : c ∈ s) :
    s.find? (keyMatches c.key) = some c := by
  induction s with
  | nil => cases hmem
  | cons a t ih =>
    rw [keys, List.map_cons, List.nodup_cons] at hs
    rcases List.mem_cons.mp hmem with h | h
    · subst h
      exact List.find?_cons_of_pos _ (by simp [keyMatches, PositionRecord.key])
    · have hne : keyMatches c.key a = false := by
        rw [Bool.eq_false_iff]
        intro hmatch
        have hak : a.key = c.key := (keyMatches_iff _ _).mp hmatch
        exact hs.1 (hak ▸ List.mem_map.mpr ⟨c, h, rfl⟩)
      rw [List.find?_cons_of_neg _ (by simp [hne])]
      exact ih hs.2 h

lemma find?_key_not_mem (s : List PositionRecord) (k : String × String)
    (h : k ∉ keys s) :
    s.find? (keyMatches k) = none := by
  rw [List.find?_eq_none]
  intro r hr hmatch
  exact h (((keyMatches_iff _ _).mp hmatch) ▸ List.mem_map.mpr ⟨r, hr, rfl⟩)

lemma lookup_self (s : List PositionRecord) (hs : (keys s).Nodup)
    (c : PositionRecord) (hmem : c ∈ s) :
    qtyOf s c.key = c.quantity ∧ valOf s c.key = c.value := by
  rw [qtyOf, valOf, find?_key_self s hs c hmem]
  exact ⟨rfl, rfl⟩

lemma lookup_not_mem (s : List PositionRecord) (k : String × String)
    (h : k ∉ keys s) :
    qtyOf s k = 0 ∧ valOf s k = 0 := by
  rw [qtyOf, valOf, find?_key_not_mem s k h]
  exact ⟨rfl, rfl⟩

lemma withDeltas_key (m : MergedRow) :
    (MergedRow.withDeltas m).key = m.key := rfl

lemma leftJoinRow_key (prev : List PositionRecord) (c : PositionRecord) :
    (leftJoinRow prev c).key = c.key := by
  rw [leftJoinRow]
  cases prev.find? (keyMatches c.key) <;> rfl

lemma rightOnlyRow_key (p : PositionRecord) :
    (rightOnlyRow p).key = p.key := rfl

lemma mergedWithChanges_map_key (cur prev : List PositionRecord) :
    (mergedWithChanges cur prev).map MergedRow.key =
      keys cur ++ keys (prev.filter fun p => !(cur.any (keyMatches p.key))) := by
  simp only [mergedWithChanges, outerJoinRows, List.map_append, List.map_map,
    keys]
  congr 1
  exact List.map_congr_left fun c _ => by
    simp only [Function.comp_apply, withDeltas_key, leftJoinRow_key]

lemma mem_keys_rightOnly (cur prev : List PositionRecord)
    (k : String × String) :
    k ∈ keys (prev.filter fun p => !(cur.any (keyMatches p.key))) ↔
      (k ∈ keys prev ∧ k ∉ keys cur) := by
  constructor
  · intro h
    rcases List.mem_map.mp h with ⟨p, hp, hpk⟩
    rcases List.mem_filter.mp hp with ⟨hpmem, hcond⟩
    subst hpk
    refine ⟨List.mem_map.mpr ⟨p, hpmem, rfl⟩, fun hkc => ?_⟩
    rw [Bool.not_eq_true'] at hcond
    rw [(any_keyMatches cur p.key).mpr hkc] at hcond
    cases hcond
  · rintro ⟨hkp, hkc⟩
    rcases List.mem_map.mp hkp with ⟨p, hpmem, hpk⟩
    subst hpk
    refine List.mem_map.mpr ⟨p, List.mem_filter.mpr ⟨hpmem, ?_⟩, rfl⟩
    rw [Bool.not_eq_true']
    cases hany : cur.any (keyMatches p.key)
    · rfl
    · exact absurd ((any_keyMatches cur p.key).mp hany) hkc

lemma nodup_keys_rightOnly (cur prev : List PositionRecord)
    (hp : (keys prev).Nodup) :
    (keys (prev.filter fun p => !(cur.any (keyMatches p.key)))).Nodup :=
  List.Nodup.sublist (List.Sublist.map _ (List.filter_sublist prev)) hp

/-- Each key occurs in the merged table exactly once when it belongs to
either snapshot, and zero times otherwise. -/
lemma merged_count_key (cur prev : List PositionRecord)
    (hc : (keys cur).Nodup) (hp : (keys prev).Nodup) (k : String × String) :
    ((mergedWithChanges cur prev).map MergedRow.key).count k =
      (if k ∈ keys cur ∨ k ∈ keys prev then 1 else 0) := by
  rw [mergedWithChanges_map_key, List.count_append,
    count_eq_ite_of_nodup _ hc k,
    count_eq_ite_of_nodup _ (nodup_keys_rightOnly cur prev hp) k]
  by_cases hkc : k ∈ keys cur <;> by_cases hkp : k ∈ keys prev <;>
    simp [hkc, hkp, mem_keys_rightOnly]

/-- Every merged row's deltas are current-minus-previous of the spec-side
lookups with missing sides as zero. -/
lemma merged_deltas (cur prev : List PositionRecord)
    (hc : (keys cur).Nodup) (hp : (keys prev).Nodup) :
    ∀ m ∈ mergedWithChanges cur prev,
      m.quantity_change = qtyOf cur m.key - qtyOf prev m.key
      ∧ m.value_change = valOf cur m.key - valOf prev m.key := by
  intro m hm
  rcases List.mem_map.mp hm with ⟨m0, hm0, rfl⟩
  rcases List.mem_append.mp hm0 with h1 | h2
  · rcases List.mem_map.mp h1 with ⟨c, hcmem, rfl⟩
    rw [withDeltas_key, leftJoinRow_key]
    have hqc := (lookup_self cur hc c hcmem).1
    have hvc := (lookup_self cur hc c hcmem).2
    rw [MergedRow.withDeltas, leftJoinRow]
    cases hfind : prev.find? (keyMatches c.key) with
    | some p =>
        have hqp : qtyOf prev c.key = p.quantity := by rw [qtyOf, hfind]; rfl
        have hvp : valOf prev c.key = p.value := by rw [valOf, hfind]; rfl
        simp only [hqc, hvc, hqp, hvp]
        exact ⟨trivial, trivial⟩
    | none =>
        have hqp : qtyOf prev c.key = 0 := by rw [qtyOf, hfind]; rfl
        have hvp : valOf prev c.key = 0 := by rw [valOf, hfind]; rfl
        simp only [hqc, hvc, hqp, hvp]
        exact ⟨trivial, trivial⟩
  · rcases List.mem_map.mp h2 with ⟨p, hpfil, rfl⟩
    rcases List.mem_filter.mp hpfil with ⟨hpmem, hcond⟩
    rw [withDeltas_key, rightOnlyRow_key]
    have hkc : p.key ∉ keys cur := by
      intro hmem
      rw [Bool.not_eq_true'] at hcond
      rw [(any_keyMatches cur p.key).mpr hmem] at hcond
      cases hcond
    have hq0 := (lookup_not_mem cur p.key hkc).1
    have hv0 := (lookup_not_mem cur p.key hkc).2
    have hqp := (lookup_self prev hp p hpmem).1
    have hvp := (lookup_self prev hp p hpmem).2
    rw [MergedRow.withDeltas, rightOnlyRow]
    simp only [hq0, hv0, hqp, hvp]
    exact ⟨trivial, trivial⟩

/-- C2: with `previous` present and duplicate-free keys on both sides, the
reconciler's merged table is the full outer join on (security_id, account):
every key of either snapshot appears exactly once (and no other key
appears), and every merged row's `quantity_change`/`value_change` are the
current-minus-previous differences with a missing side treated as zero. -/
theorem reconciler_full_outer_join (cur prev : List PositionRecord)
    (hc : (keys cur).Nodup) (hp : (keys prev).Nodup) (k : String × String) :
    ((mergedWithChanges cur prev).map MergedRow.key).count k =
      (if k ∈ keys cur ∨ k ∈ keys prev then 1 else 0)
    ∧ ∀ m ∈ mergedWithChanges cur prev, m.key = k →
        m.quantity_change = qtyOf cur k - qtyOf prev k
        ∧ m.value_change = valOf cur k - valOf prev k := by
  refine ⟨merged_count_key cur prev hc hp k, fun m hm hk => ?_⟩
  have := merged_deltas cur prev hc hp m hm
  rw [hk] at this
  exact this

/-- Witness for C2: a key in both snapshots, a current-only key and a
previous-only key, each joined exactly once with the documented deltas. -/
theorem reconciler_full_outer_join_witness :
    ((mergedWithChanges
        [⟨"SEC1", "ACC1", 100, 1000⟩, ⟨"SEC2", "ACC1", 7, 70⟩]
        [⟨"SEC1", "ACC1", 60, 600⟩, ⟨"SEC3", "ACC2", 4, 40⟩]).map
          MergedRow.key).count ("SEC3", "ACC2") = 1
    ∧ ∀ m ∈ mergedWithChanges
        [⟨"SEC1", "ACC1", 100, 1000⟩, ⟨"SEC2", "ACC1", 7, 70⟩]
        [⟨"SEC1", "ACC1", 60, 600⟩, ⟨"SEC3", "ACC2", 4, 40⟩],
        m.key = ("SEC3", "ACC2") →
          m.quantity_change =
            qtyOf [⟨"SEC1", "ACC1", 100, 1000⟩, ⟨"SEC2", "ACC1", 7, 70⟩]
              ("SEC3", "ACC2")
            - qtyOf [⟨"SEC1", "ACC1", 60, 600⟩, ⟨"SEC3", "ACC2", 4, 40⟩]
              ("SEC3", "ACC2")
          ∧ m.value_change =
            valOf [⟨"SEC1", "ACC1", 100, 1000⟩, ⟨"SEC2", "ACC1", 7, 70⟩]
              ("SEC3", "ACC2")
            - valOf [⟨"SEC1", "ACC1", 60, 600⟩, ⟨"SEC3", "ACC2", 4, 40⟩]
              ("SEC3", "ACC2") := by
  have h := reconciler_full_outer_join
    [⟨"SEC1", "ACC1", 100, 1000⟩, ⟨"SEC2", "ACC1", 7, 70⟩]
    [⟨"SEC1", "ACC1", 60, 600⟩, ⟨"SEC3", "ACC2", 4, 40⟩]
    (by decide) (by decide) ("SEC3", "ACC2")
  refine ⟨?_, h.2⟩
  rw [h.1, if_pos (by decide)]

/-- A positive occurrence count implies membership, under a lawful boolean
equality. -/
lemma mem_of_count_ne_zero {α : Type} [BEq α] [LawfulBEq α] (l : List α)
    (a : α) (h : l.count a ≠ 0) : a ∈ l := by
  induction l with
  | nil => simp [List.count_nil] at h
  | cons b t ih =>
    by_cases hab : a = b
    · exact hab ▸ List.mem_cons_self b t
    · have hba : (b == a) = false := by
        simp [Ne.symm hab]
      rw [List.count_cons, hba] at h
      simp at h
      exact List.mem_cons_of_mem b (ih h)

/-- C3: with `previous` present and duplicate-free keys, the reconciler
emits a ChangeRecord for a key exactly when the key's quantity delta or
value delta is non-zero (exact comparison); in particular a key whose
current and previous records are identical yields no ChangeRecord. -/
theorem reconciler_emits_iff_nonzero_delta (cur prev : List PositionRecord)
    (hc : (keys cur).Nodup) (hp : (keys prev).Nodup) (k : String × String) :
    (∃ c ∈ calculate_adjustments cur (some prev), ChangeRecord.key c = k) ↔
      (qtyOf cur k - qtyOf prev k ≠ 0 ∨ valOf cur k - valOf prev k ≠ 0) := by
  constructor
  · rintro ⟨c, hcmem, hck⟩
    simp only [calculate_adjustments] at hcmem
    rcases List.mem_map.mp hcmem with ⟨m, hmf, rfl⟩
    rcases List.mem_filter.mp hmf with ⟨hmmem, hcond⟩
    have hkey : m.key = k := hck
    have hd := merged_deltas cur prev hc hp m hmmem
    rw [hkey] at hd
    rw [Bool.or_eq_true, bne_iff_ne, bne_iff_ne] at hcond
    rw [← hd.1, ← hd.2]
    exact hcond
  · intro hne
    have hk : k ∈ keys cur ∨ k ∈ keys prev := by
      by_contra hnk
      push_neg at hnk
      have h1 := lookup_not_mem cur k hnk.1
      have h2 := lookup_not_mem prev k hnk.2
      rw [h1.1, h1.2, h2.1, h2.2] at hne
      simp at hne
    have hcount := merged_count_key cur prev hc hp k
    rw [if_pos hk] at hcount
    have hmem : k ∈ (mergedWithChanges cur prev).map MergedRow.key :=
      mem_of_count_ne_zero _ _ (by omega)
    rcases List.mem_map.mp hmem with ⟨m, hmmem, hmk⟩
    have hd := merged_deltas cur prev hc hp m hmmem
    rw [hmk] at hd
    refine ⟨MergedRow.toChangeRecord m, ?_, hmk⟩
    simp only [calculate_adjustments]
    refine List.mem_map.mpr ⟨m, List.mem_filter.mpr ⟨hmmem, ?_⟩, rfl⟩
    rw [Bool.or_eq_true, bne_iff_ne, bne_iff_ne, hd.1, hd.2]
    exact hne

/-- Witness for C3: an unchanged key yields no ChangeRecord, a changed key
yields one. -/
theorem reconciler_emits_iff_nonzero_delta_witness :
    (¬ ∃ c ∈ calculate_adjustments
        [⟨"SEC1", "ACC1", 5, 50⟩, ⟨"SEC2", "ACC1", 3, 30⟩]
        (some [⟨"SEC1", "ACC1", 5, 50⟩, ⟨"SEC2", "ACC1", 1, 10⟩]),
        ChangeRecord.key c = ("SEC1", "ACC1"))
    ∧ (∃ c ∈ calculate_adjustments
        [⟨"SEC1", "ACC1", 5, 50⟩, ⟨"SEC2", "ACC1", 3, 30⟩]
        (some [⟨"SEC1", "ACC1", 5, 50⟩, ⟨"SEC2", "ACC1", 1, 10⟩]),
        ChangeRecord.key c = ("SEC2", "ACC1")) := by
  constructor
  · intro hex
    have h := (reconciler_emits_iff_nonzero_delta
      [⟨"SEC1", "ACC1", 5, 50⟩, ⟨"SEC2", "ACC1", 3, 30⟩]
      [⟨"SEC1", "ACC1", 5, 50⟩, ⟨"SEC2", "ACC1", 1, 10⟩]
      (by decide) (by decide) ("SEC1", "ACC1")).mp hex
    revert h
    decide
  · exact (reconciler_emits_iff_nonzero_delta
      [⟨"SEC1", "ACC1", 5, 50⟩, ⟨"SEC2", "ACC1", 3, 30⟩]
      [⟨"SEC1", "ACC1", 5, 50⟩, ⟨"SEC2", "ACC1", 1, 10⟩]
      (by decide) (by decide) ("SEC2", "ACC1")).mpr (by decide)

/-- C4: with `previous` absent, every record of the current snapshot — in
order and with no zero-delta filtering — becomes one ChangeRecord whose
`quantity_change` is the record's quantity and whose `value_change` is its
value. -/
theorem reconciler_no_previous (cur : List PositionRecord) (i : Nat)
    (r : PositionRecord) (hir : cur[i]? = some r) :
    (calculate_adjustments cur none).length = cur.length
    ∧ (calculate_adjustments cur none)[i]? =
        some ⟨r.security_id, r.account, r.quantity, r.value⟩ := by
  refine ⟨by simp [calculate_adjustments], ?_⟩
  simp [calculate_adjustments, List.getElem?_map, hir]

/-- Witness for C4: a record with zero quantity and value still yields its
ChangeRecord. -/
theorem reconciler_no_previous_witness :
    (calculate_adjustments [⟨"SEC1", "ACC1", 0, 0⟩] none).length = 1
    ∧ (calculate_adjustments [⟨"SEC1", "ACC1", 0, 0⟩] none)[0]? =
        some ⟨"SEC1", "ACC1", 0, 0⟩ :=
  reconciler_no_previous [⟨"SEC1", "ACC1", 0, 0⟩] 0 ⟨"SEC1", "ACC1", 0, 0⟩
    (by decide)

/-! ## Loader boundary (`JournalGenerator.load_position_data`, auto1.py
lines 26-46)

The loader receives a file path and the tabular contents behind it.  We
model the file as its (path-)suffix together with its raw rows, each row an
association list from column name to cell text: the code hands whatever
`pd.read_csv`/`pd.read_excel` parsed straight back to the caller. -/

/-- A raw input file: its path suffix and its parsed rows with arbitrary
column names. -/
structure RawFile where
  suffix : String
  rows : List (List (String × String))
deriving DecidableEq, Repr

/-- The only error `load_position_data` raises: the `ValueError` for an
unsupported file extension. -/
inductive LoadError
  | unsupportedFormat (suffix : String)
deriving DecidableEq, Repr

/-- `file_path.suffix.lower()`: ASCII lower-casing of the suffix,
character by character. -/
def lowerStr (s : String) : String :=
  String.mk (s.data.map Char.toLower)

/-- `JournalGenerator.load_position_data`: dispatch on the lower-cased
suffix, return the parsed rows unchanged, raise `ValueError` for any other
extension.  No inspection of the columns happens anywhere in it. -/
def load_position_data (f : RawFile) :
    Except LoadError (List (List (String × String))) :=
  if lowerStr f.suffix = ".csv" then
    Except.ok f.rows
  else if lowerStr f.suffix = ".xlsx" ∨ lowerStr f.suffix = ".xls" then
    Except.ok f.rows
  else
    Except.error (LoadError.unsupportedFormat f.suffix)

/-- The required snapshot shape named by the spec (`security_id`,
`account`, `quantity`, `value`). -/
def requiredFieldNames : List String :=
  ["security_id", "account", "quantity", "value"]

/-- Does a raw row carry every required field? -/
def rowHasRequiredFields (row : List (String × String)) : Bool :=
  requiredFieldNames.all fun c => row.any fun kv => kv.1 == c

/-- Counterexample to C8: a CSV snapshot missing every required field is
returned by the loader untouched — no `SchemaError` (indeed no error of
any kind) is raised at the loader boundary. -/
theorem loader_no_schema_error_counterexample :
    rowHasRequiredFields [("foo", "1")] = false
    ∧ load_position_data ⟨".csv", [[("foo", "1")]]⟩ =
        Except.ok [[("foo", "1")]] := by
  constructor
  · decide
  · rfl

/-- C8 as amended: the loader validates only the file extension.  A file
whose lower-cased suffix is `.csv`, `.xlsx` or `.xls` is returned as-is,
whatever its columns; any other suffix raises the unsupported-format
`ValueError`.  No schema validation happens at the loader boundary. -/
theorem loader_validates_only_extension (f : RawFile) :
    ((lowerStr f.suffix = ".csv" ∨ lowerStr f.suffix = ".xlsx"
        ∨ lowerStr f.suffix = ".xls") →
      load_position_data f = Except.ok f.rows)
    ∧ ((lowerStr f.suffix ≠ ".csv" ∧ lowerStr f.suffix ≠ ".xlsx"
        ∧ lowerStr f.suffix ≠ ".xls") →
      load_position_data f =
        Except.error (LoadError.unsupportedFormat f.suffix)) := by
  constructor
  · intro h
    rcases h with h | h | h <;>
      simp [load_position_data, h]
  · rintro ⟨h1, h2, h3⟩
    simp [load_position_data, h1, h2, h3]

/-- Witness for the amended C8: a schema-less CSV file loads, a `.txt`
file raises the unsupported-format error. -/
theorem loader_validates_only_extension_witness :
    load_position_data ⟨".csv", [[("foo", "1")]]⟩ =
      Except.ok [[("foo", "1")]]
    ∧ load_position_data ⟨".txt", [[("security_id", "S")]]⟩ =
        Except.error (LoadError.unsupportedFormat ".txt") :=
  ⟨(loader_validates_only_extension ⟨".csv", [[("foo", "1")]]⟩).1
      (Or.inl (by decide)),
   (loader_validates_only_extension ⟨".txt", [[("security_id", "S")]]⟩).2
      (by refine ⟨?_, ?_, ?_⟩ <;> decide)⟩

/-! ## Object-level model of the two core calls

To settle whether `calculate_adjustments` and `generate_journal_entries`
mutate their argument DataFrames, we run them over an explicit heap of
DataFrame objects.  `pd.merge`, `.copy()` and `pd.DataFrame(entries)`
allocate fresh objects; a column assignment `df[col] = ...` mutates the
object it is applied to in place.  The source applies column assignments
only to objects freshly produced by `pd.merge(...).fillna(0)` or
`.copy()` inside the call, never to the arguments.  The two consecutive
delta-column assignments are modelled as a single in-place update of the
fresh merged object. -/

/-- A DataFrame object living on the heap, tagged by the stage of the
pipeline that shaped its columns. -/
inductive DF
  | blank
  | positions (rows : List PositionRecord)
  | merged (rows : List MergedRow)
  | adjustments (rows : List ChangeRecord)
  | journal (rows : List JournalEntry)
deriving DecidableEq, Repr

/-- The heap: object ids below `next` are allocated. -/
structure Heap where
  next : Nat
  store : Nat → DF

/-- Allocate a fresh object holding `d`, returning its id. -/
def Heap.alloc (h : Heap) (d : DF) : Heap × Nat :=
  (⟨h.next + 1, fun i => if i = h.next then d else h.store i⟩, h.next)

/-- Mutate the object at id `i` in place. -/
def Heap.setDF (h : Heap) (i : Nat) (d : DF) : Heap :=
  ⟨h.next, fun j => if j = i then d else h.store j⟩

def DF.positionsRows : DF → List PositionRecord
  | .positions rows => rows
  | _ => []

def DF.mergedRows : DF → List MergedRow
  | .merged rows => rows
  | _ => []

def DF.changeRows : DF → List ChangeRecord
  | .adjustments rows => rows
  | _ => []

/-- `calculate_adjustments` over the heap.  With `previous` present:
`pd.merge(...).fillna(0)` allocates the merged object, the delta-column
assignments mutate it, `merged[...].copy()` allocates the result.  With
`previous` absent: `current_positions.copy()` allocates the result and the
two column assignments mutate the copy. -/
def calc_prog (h : Heap) (curId : Nat) (prevId : Option Nat) : Heap × Nat :=
  match prevId with
  | some pid =>
      let cur := (h.store curId).positionsRows
      let prev := (h.store pid).positionsRows
      let hm := h.alloc (DF.merged (outerJoinRows cur prev))
      let h2 := hm.1.setDF hm.2
        (DF.merged (((hm.1.store hm.2).mergedRows).map MergedRow.withDeltas))
      let ha := h2.alloc (DF.adjustments
        ((((h2.store hm.2).mergedRows).filter fun m =>
            m.quantity_change != 0 || m.value_change != 0).map
          MergedRow.toChangeRecord))
      (ha.1, ha.2)
  | none =>
      let hcopy := h.alloc (DF.positions ((h.store curId).positionsRows))
      let h2 := hcopy.1.setDF hcopy.2
        (DF.adjustments (((hcopy.1.store hcopy.2).positionsRows).map
          fun c => ⟨c.security_id, c.account, c.quantity, c.value⟩))
      (h2, hcopy.2)

/-- `generate_journal_entries` over the heap: it reads the adjustment rows,
builds the entry list, and `pd.DataFrame(entries)` allocates the result. -/
def gen_prog (h : Heap) (adjId : Nat) (d : String) : Heap × Nat :=
  let entries := generate_journal_entries ((h.store adjId).changeRows) d
  let hj := h.alloc (DF.journal entries)
  (hj.1, hj.2)

lemma calc_prog_store_lt (h : Heap) (curId : Nat) (prevId : Option Nat)
    (i : Nat) (hi : i < h.next) :
    (calc_prog h curId prevId).1.store i = h.store i := by
  have h1 : i ≠ h.next := by omega
  have h2 : i ≠ h.next + 1 := by omega
  cases prevId <;> simp [calc_prog, Heap.alloc, Heap.setDF, h1, h2]

lemma gen_prog_store_lt (h : Heap) (adjId : Nat) (d : String)
    (i : Nat) (hi : i < h.next) :
    (gen_prog h adjId d).1.store i = h.store i := by
  have h1 : i ≠ h.next := by omega
  simp [gen_prog, Heap.alloc, h1]

lemma calc_prog_result_some (h : Heap) (curId pid : Nat)
    (cur prev : List PositionRecord)
    (hc : h.store curId = DF.positions cur)
    (hp : h.store pid = DF.positions prev) :
    (calc_prog h curId (some pid)).1.store (calc_prog h curId (some pid)).2
      = DF.adjustments (calculate_adjustments cur (some prev)) := by
  simp [calc_prog, Heap.alloc, Heap.setDF, hc, hp, DF.positionsRows,
    DF.mergedRows, calculate_adjustments, mergedWithChanges]

lemma calc_prog_result_none (h : Heap) (curId : Nat)
    (cur : List PositionRecord)
    (hc : h.store curId = DF.positions cur) :
    (calc_prog h curId none).1.store (calc_prog h curId none).2
      = DF.adjustments (calculate_adjustments cur none) := by
  simp [calc_prog, Heap.alloc, Heap.setDF, hc, DF.positionsRows,
    calculate_adjustments]

lemma gen_prog_result (h : Heap) (adjId : Nat) (d : String)
    (rows : List ChangeRecord)
    (ha : h.store adjId = DF.adjustments rows) :
    (gen_prog h adjId d).1.store (gen_prog h adjId d).2
      = DF.journal (generate_journal_entries rows d) := by
  simp [gen_prog, Heap.alloc, ha, DF.changeRows]

/-- C9: the reconciler and the entry builder are pure.  Over the heap of
DataFrame objects, with the inputs stored at live ids: (1) no call changes
any pre-existing object — in particular none mutates its input snapshots
or change list; (2) each call's result object holds exactly the value of
the corresponding pure function of the input values, so two calls on
possibly different heaps holding equal snapshot inputs (and, for the entry
builder, an equal explicitly supplied date) produce equal results. -/
theorem reconciler_and_builder_pure (h g : Heap)
    (curId pid adjId curId2 pid2 adjId2 : Nat)
    (cur prev : List PositionRecord) (rows : List ChangeRecord) (d : String)
    (hcl : curId < h.next) (hpl : pid < h.next) (hal : adjId < h.next)
    (hc : h.store curId = DF.positions cur)
    (hp : h.store pid = DF.positions prev)
    (ha : h.store adjId = DF.adjustments rows)
    (gc : g.store curId2 = DF.positions cur)
    (gp : g.store pid2 = DF.positions prev)
    (ga : g.store adjId2 = DF.adjustments rows) :
    ((calc_prog h curId (some pid)).1.store curId = h.store curId
      ∧ (calc_prog h curId (some pid)).1.store pid = h.store pid
      ∧ (calc_prog h curId none).1.store curId = h.store curId
      ∧ (gen_prog h adjId d).1.store adjId = h.store adjId
      ∧ ∀ i, i < h.next →
          (calc_prog h curId (some pid)).1.store i = h.store i
          ∧ (calc_prog h curId none).1.store i = h.store i
          ∧ (gen_prog h adjId d).1.store i = h.store i)
    ∧ (calc_prog h curId (some pid)).1.store (calc_prog h curId (some pid)).2
        = DF.adjustments (calculate_adjustments cur (some prev))
    ∧ (calc_prog h curId none).1.store (calc_prog h curId none).2
        = DF.adjustments (calculate_adjustments cur none)
    ∧ (gen_prog h adjId d).1.store (gen_prog h adjId d).2
        = DF.journal (generate_journal_entries rows d)
    ∧ (calc_prog h curId (some pid)).1.store (calc_prog h curId (some pid)).2
        = (calc_prog g curId2 (some pid2)).1.store
            (calc_prog g curId2 (some pid2)).2
    ∧ (gen_prog h adjId d).1.store (gen_prog h adjId d).2
        = (gen_prog g adjId2 d).1.store (gen_prog g adjId2 d).2 := by
  refine ⟨⟨calc_prog_store_lt h curId (some pid) curId hcl,
      calc_prog_store_lt h curId (some pid) pid hpl,
      calc_prog_store_lt h curId none curId hcl,
      gen_prog_store_lt h adjId d adjId hal,
      fun i hi => ⟨calc_prog_store_lt h curId (some pid) i hi,
        calc_prog_store_lt h curId none i hi,
        gen_prog_store_lt h adjId d i hi⟩⟩,
    calc_prog_result_some h curId pid cur prev hc hp,
    calc_prog_result_none h curId cur hc,
    gen_prog_result h adjId d rows ha, ?_, ?_⟩
  · rw [calc_prog_result_some h curId pid cur prev hc hp,
      calc_prog_result_some g curId2 pid2 cur prev gc gp]
  · rw [gen_prog_result h adjId d rows ha,
      gen_prog_result g adjId2 d rows ga]

/-- Witness for C9 on a concrete three-object heap used twice. -/
theorem reconciler_and_builder_pure_witness :
    (calc_prog
        ⟨3, fun i => if i = 0 then DF.positions [⟨"SEC1", "ACC1", 100, 1000⟩]
          else if i = 1 then DF.positions [⟨"SEC1", "ACC1", 60, 600⟩]
          else if i = 2 then DF.adjustments [⟨"SEC1", "ACC1", 40, 400⟩]
          else DF.blank⟩ 0 (some 1)).1.store 0
      = DF.positions [⟨"SEC1", "ACC1", 100, 1000⟩]
    ∧ (calc_prog
        ⟨3, fun i => if i = 0 then DF.positions [⟨"SEC1", "ACC1", 100, 1000⟩]
          else if i = 1 then DF.positions [⟨"SEC1", "ACC1", 60, 600⟩]
          else if i = 2 then DF.adjustments [⟨"SEC1", "ACC1", 40, 400⟩]
          else DF.blank⟩ 0 (some 1)).1.store
        (calc_prog
          ⟨3, fun i => if i = 0 then DF.positions [⟨"SEC1", "ACC1", 100, 1000⟩]
            else if i = 1 then DF.positions [⟨"SEC1", "ACC1", 60, 600⟩]
            else if i = 2 then DF.adjustments [⟨"SEC1", "ACC1", 40, 400⟩]
            else DF.blank⟩ 0 (some 1)).2
      = DF.adjustments (calculate_adjustments [⟨"SEC1", "ACC1", 100, 1000⟩]
          (some [⟨"SEC1", "ACC1", 60, 600⟩])) := by
  have H := reconciler_and_builder_pure
    ⟨3, fun i => if i = 0 then DF.positions [⟨"SEC1", "ACC1", 100, 1000⟩]
      else if i = 1 then DF.positions [⟨"SEC1", "ACC1", 60, 600⟩]
      else if i = 2 then DF.adjustments [⟨"SEC1", "ACC1", 40, 400⟩]
      else DF.blank⟩
    ⟨3, fun i => if i = 0 then DF.positions [⟨"SEC1", "ACC1", 100, 1000⟩]
      else if i = 1 then DF.positions [⟨"SEC1", "ACC1", 60, 600⟩]
      else if i = 2 then DF.adjustments [⟨"SEC1", "ACC1", 40, 400⟩]
      else DF.blank⟩
    0 1 2 0 1 2 [⟨"SEC1", "ACC1", 100, 1000⟩] [⟨"SEC1", "ACC1", 60, 600⟩]
    [⟨"SEC1", "ACC1", 40, 400⟩] "2024-01-02"
    (by decide) (by decide) (by decide) rfl rfl rfl rfl rfl rfl
  have h0 : (⟨3, fun i =>
      if i = 0 then DF.positions [⟨"SEC1", "ACC1", 100, 1000⟩]
      else if i = 1 then DF.positions [⟨"SEC1", "ACC1", 60, 600⟩]
      else if i = 2 then DF.adjustments [⟨"SEC1", "ACC1", 40, 400⟩]
      else DF.blank⟩ : Heap).store 0
      = DF.positions [⟨"SEC1", "ACC1", 100, 1000⟩] := rfl
  exact ⟨h0 ▸ H.1.1, H.2.1⟩

/-! ## `merge_pdfs` (pdf_merger.py lines 12-44)

A file argument is modelled by its path together with the three
environment facts the function consults: whether the path exists on disk,
whether its suffix is `.pdf`, and whether `merger.append` succeeds on it
(PyPDF2 may raise, which the `except` clause turns into `return False`).
`writeOk` says whether `merger.write(output_file)` succeeds. -/

/-- One entry of the `pdf_files` argument. -/
structure PdfFile where
  path : String
  pathExists : Bool
  isPdf : Bool
  appendOk : Bool
deriving DecidableEq, Repr

/-- Result of a `merge_pdfs` call: the returned boolean and whether
`merger.write(output_file)` was ever invoked. -/
structure MergeResult where
  success : Bool
  wroteOutput : Bool
deriving DecidableEq, Repr

/-- The `for pdf_file in pdf_files` loop: `none` means the function
returned `False` from inside the loop (missing file, or an exception from
`merger.append` caught by the handler); `some acc` means the loop finished
with `acc` the list of appended paths in order. -/
def mergeLoop : List PdfFile → List String → Option (List String)
  | [], acc => some acc
  | f :: rest, acc =>
      if !f.pathExists then none
      else if !f.isPdf then mergeLoop rest acc
      else if !f.appendOk then none
      else mergeLoop rest (acc ++ [f.path])

/-- `merge_pdfs`: run the loop; only when it completes is
`merger.write(output_file)` invoked, returning `True` on success and
`False` (via the `except` clause) when the write raises. -/
def merge_pdfs (pdf_files : List PdfFile) (writeOk : Bool) : MergeResult :=
  match mergeLoop pdf_files [] with
  | none => ⟨false, false⟩
  | some _ => if writeOk then ⟨true, true⟩ else ⟨false, true⟩

lemma mergeLoop_none_of_missing (l : List PdfFile) (f : PdfFile)
    (hf : f ∈ l) (hmiss : f.pathExists = false) :
    ∀ acc, mergeLoop l acc = none := by
  induction l with
  | nil => cases hf
  | cons a rest ih =>
    intro acc
    by_cases hae : a.pathExists = false
    · simp [mergeLoop, hae]
    · have haf : f ≠ a := fun h => hae (h ▸ hmiss)
      have hfr : f ∈ rest := (List.mem_cons.mp hf).resolve_left haf
      rw [Bool.not_eq_false] at hae
      by_cases hap : a.isPdf
      · by_cases hok : a.appendOk
        · simp [mergeLoop, hae, hap, hok, ih hfr]
        · simp [mergeLoop, hae, hap, hok]
      · simp [mergeLoop, hae, hap, ih hfr]

/-- C10: if any path in `pdf_files` does not exist on disk, `merge_pdfs`
returns `False` and `merger.write(output_file)` is never invoked — the
existence check aborts the loop before the write step, whatever the other
files and the write outcome are. -/
theorem merge_pdfs_missing_file_aborts (pdf_files : List PdfFile)
    (writeOk : Bool) (f : PdfFile) (hf : f ∈ pdf_files)
    (hmiss : f.pathExists = false) :
    merge_pdfs pdf_files writeOk = ⟨false, false⟩ := by
  rw [merge_pdfs, mergeLoop_none_of_missing pdf_files f hf hmiss []]

/-- Witness for C10: the second file is missing, the first appends fine,
and the write itself would succeed — yet the call returns `False` with no
write. -/
theorem merge_pdfs_missing_file_aborts_witness :
    merge_pdfs [⟨"a.pdf", true, true, true⟩, ⟨"b.pdf", false, true, true⟩]
      true = ⟨false, false⟩ :=
  merge_pdfs_missing_file_aborts
    [⟨"a.pdf", true, true, true⟩, ⟨"b.pdf", false, true, true⟩] true
    ⟨"b.pdf", false, true, true⟩ (by decide) rfl

end Automation
